import Mathlib

/-!
Verification development for the UID dominance dashboard
(`example_web/main.py`): threshold-adjusted Pareto dominance over a
population of miners, per-environment statistics reconstruction from raw
API score records, a population dominance builder, and a block-keyed
snapshot cache.

Python floating point arithmetic is modelled by exact rationals (`ℚ`);
Python dicts are modelled by insertion-ordered association lists (the
iteration order of a dict matters in `get_first_block`), and maps keyed
by miner hotkey are modelled as total functions defaulting to the empty
association list (mirroring `dict.get(hotkey, {})`).  Fallible external
collaborators are modelled with `Except Unit`.
-/

/- The arithmetic of `ℚ` is `@[irreducible]` in the library; restore the
default reducibility locally so that concrete runs of the embedded program
can be evaluated by `decide` inside the kernel. -/
attribute [local semireducible] Rat.add Rat.sub Rat.mul Rat.inv

/-- Lookup in an association list, first binding wins (dict access). -/
def dlookup {κ α : Type} [DecidableEq κ] : List (κ × α) → κ → Option α
  | [], _ => none
  | p :: ps, k => if p.1 = k then some p.2 else dlookup ps k

/-- Set a key in an association list with Python-dict semantics: an existing
key is overwritten in place, a new key is appended at the end. -/
def dictSet {κ α : Type} [DecidableEq κ] (l : List (κ × α)) (k : κ) (v : α) :
    List (κ × α) :=
  if l.any (fun p => p.1 = k) then
    l.map (fun p => if p.1 = k then (k, v) else p)
  else
    l ++ [(k, v)]

/-- Round to nearest integer with ties to even (Python `round`). -/
def roundQ (q : ℚ) : ℤ :=
  let f := ⌊q⌋
  let r := q - (f : ℚ)
  if r < mkRat 1 2 then f
  else if mkRat 1 2 < r then f + 1
  else if f % 2 = 0 then f else f + 1

/-- Insert into a sorted list of naturals (helper for `sortNat`). -/
def insertSorted (a : ℕ) : List ℕ → List ℕ
  | [] => [a]
  | b :: bs => if a ≤ b then a :: b :: bs else b :: insertSorted a bs

/-- Insertion sort on naturals, modelling Python `sorted`. -/
def sortNat (l : List ℕ) : List ℕ := l.foldr insertSorted []

theorem mem_insertSorted {a x : ℕ} {l : List ℕ} :
    x ∈ insertSorted a l ↔ x = a ∨ x ∈ l := by
  induction l with
  | nil => simp [insertSorted]
  | cons b bs ih =>
    by_cases h : a ≤ b
    · simp only [insertSorted, if_pos h, List.mem_cons]
    · simp only [insertSorted, if_neg h, List.mem_cons, ih]
      tauto

theorem mem_sortNat {x : ℕ} {l : List ℕ} : x ∈ sortNat l ↔ x ∈ l := by
  induction l with
  | nil => simp [sortNat]
  | cons b bs ih =>
    simp only [sortNat, List.foldr_cons] at ih ⊢
    rw [mem_insertSorted]
    simp only [List.mem_cons, ih]

/-- Python `min` over a list of keys (the cache is nonempty when taken). -/
def minKey : List ℕ → ℕ
  | [] => 0
  | k :: ks => ks.foldl min k

/-- Per-environment data of one raw API score record
(`scores_by_env[env] = {score, sample_count, threshold, completeness}`).
Missing environments are modelled by absence from the association list;
the Python defaults for the individual fields
(`score=0.0`, `sample_count=0`, `threshold=0.0`, `completeness=1.0`)
are applied by the accessors below. -/
structure EnvScoreData where
  score : ℚ
  sample_count : ℕ
  threshold : ℚ
  completeness : ℚ
deriving DecidableEq, Repr

/-- One entry of `stats[hotkey][env]` as reconstructed by
`_reconstruct_stats_from_api_scores`. -/
structure StatEntry where
  samples : ℕ
  total_score : ℚ
  first_block : ℕ
deriving DecidableEq, Repr

/-- `d.get(env, {}).get("score", 0.0)` on a per-miner `scores_by_env` dict. -/
def envScore (m : List (String × EnvScoreData)) (e : String) : ℚ :=
  ((dlookup m e).map EnvScoreData.score).getD 0

/-- `d.get(env, {}).get("sample_count", 0)` on a per-miner `scores_by_env` dict. -/
def envSamples (m : List (String × EnvScoreData)) (e : String) : ℕ :=
  ((dlookup m e).map EnvScoreData.sample_count).getD 0

/-- `stats.get(hk, {}).get(env, {}).get('samples', 0)`. -/
def statSamples (m : List (String × StatEntry)) (e : String) : ℕ :=
  ((dlookup m e).map StatEntry.samples).getD 0

/-- First-block resolution of `_check_dominance`: scan `envs` in order and
take the first environment whose stat entry has a truthy `first_block`
(`0` is falsy in Python). -/
def resolveFB (stats : List (String × StatEntry)) (envs : List String) : Option ℕ :=
  envs.findSome? (fun e =>
    match dlookup stats e with
    | some st => if st.first_block ≠ 0 then some st.first_block else none
    | none => none)

/-- Validator dominance configuration constant: 20% error-rate reduction. -/
def ERROR_RATE_REDUCTION : ℚ := mkRat 2 10

/-- Validator dominance configuration constant: minimum 2% absolute improvement. -/
def MIN_IMPROVEMENT : ℚ := mkRat 2 100

/-- Validator dominance configuration constant: maximum 10% improvement cap. -/
def MAX_IMPROVEMENT : ℚ := mkRat 1 10

/-- `_calculate_required_score`: required score to beat a prior,
`min(prior + min(max((1 - prior) * err, min_imp), max_imp), 1.0)`. -/
def calculateRequiredScore (prior_score error_rate_reduction min_improvement
    max_improvement : ℚ) : ℚ :=
  let error_delta := (1 - prior_score) * error_rate_reduction
  let improvement := min (max error_delta min_improvement) max_improvement
  min (prior_score + improvement) 1

/-- `_calculate_required_score` applied with the module-level constants, as
done at the call site inside `_check_dominance`. -/
def requiredScore (prior_score : ℚ) : ℚ :=
  calculateRequiredScore prior_score ERROR_RATE_REDUCTION MIN_IMPROVEMENT MAX_IMPROVEMENT

/-- Floating point comparison epsilon used by `_check_dominance`. -/
def eps : ℚ := mkRat 1 1000000000

/-- One flag of the SIMPLE fallback rule: miner with scores `aS` strictly
wins at least one shared environment (both sides with samples) against `bS`. -/
def simpleAWins (aS bS : List (String × EnvScoreData)) (envs : List String) : Bool :=
  envs.any (fun e =>
    decide (0 < envSamples aS e) && decide (0 < envSamples bS e) &&
    decide (envScore bS e < envScore aS e))

/-- SIMPLE fallback rule of `_check_dominance`: the candidate wins somewhere
and the target wins nowhere. -/
def simpleDominates (aS bS : List (String × EnvScoreData)) (envs : List String) : Bool :=
  simpleAWins aS bS envs && !(simpleAWins bS aS envs)

/-- Environments where both the earlier and the later miner have samples. -/
def validEnvs (eS lS : List (String × EnvScoreData)) (envs : List String) : List String :=
  envs.filter (fun e => decide (0 < envSamples eS e) && decide (0 < envSamples lS e))

/-- The later miner beats the earlier miner's threshold in environment `e`
(`later_score > threshold + eps`). -/
def laterBeats (eS lS : List (String × EnvScoreData)) (e : String) : Bool :=
  decide (requiredScore (envScore eS e) + eps < envScore lS e)

/-- `later_wins_count` of the threshold loop in `_check_dominance`. -/
def laterWinsCount (eS lS : List (String × EnvScoreData)) (envs : List String) : ℕ :=
  (envs.filter (fun e =>
    decide (0 < envSamples eS e) && decide (0 < envSamples lS e) &&
    laterBeats eS lS e)).length

/-- `earlier_wins_count` of the threshold loop in `_check_dominance`. -/
def earlierWinsCount (eS lS : List (String × EnvScoreData)) (envs : List String) : ℕ :=
  (envs.filter (fun e =>
    decide (0 < envSamples eS e) && decide (0 < envSamples lS e) &&
    !(laterBeats eS lS e))).length

/-- `_check_dominance(candidate, target, envs, scores_by_env_map, stats)`:
does the candidate dominate the target under the validator's
threshold-based rule (with the SIMPLE fallback when a `first_block`
cannot be resolved or is tied)? -/
def checkDominance (ck tk : String) (envs : List String)
    (sbem : String → List (String × EnvScoreData))
    (stats : String → List (String × StatEntry)) : Bool :=
  let cS := sbem ck
  let tS := sbem tk
  if cS.isEmpty || tS.isEmpty then false
  else
    match resolveFB (stats ck) envs, resolveFB (stats tk) envs with
    | some cfb, some tfb =>
      if cfb < tfb then
        -- candidate came first: candidate dominates iff the earlier
        -- (candidate) side wins every environment both have data in
        if (validEnvs cS tS envs).isEmpty then false
        else decide (earlierWinsCount cS tS envs = (validEnvs cS tS envs).length)
      else if tfb < cfb then
        -- target came first: candidate dominates iff the later
        -- (candidate) side clears the threshold everywhere
        if (validEnvs tS cS envs).isEmpty then false
        else decide (laterWinsCount tS cS envs = (validEnvs tS cS envs).length)
      else simpleDominates cS tS envs
    | none, _ => simpleDominates cS tS envs
    | some _, none => simpleDominates cS tS envs

/-- The metagraph as consumed by the dashboard: the dense hotkey list and
the current block height. -/
structure Metagraph where
  hotkeys : List String
  block : ℕ
deriving DecidableEq, Repr

/-- One raw record of the `/scores/latest` feed.  `miner_hotkey` is
`none` when the field is missing or its extraction fails (Python
`score.get("miner_hotkey")` yielding `None`): such a record is malformed
and never contributes to the reconstruction. -/
structure RawScoreEntry where
  miner_hotkey : Option String
  first_block : ℕ
  total_samples : ℕ
  overall_score : ℚ
  model : String
  model_revision : String
  scores_by_env : List (String × EnvScoreData)
deriving DecidableEq, Repr

/-- The `/scores/latest` response.  `api_error` models the
`{"success": false, ...}` error-response shape; a `block_number` of `0` is
falsy in Python and is treated as "no scores". -/
structure ScoresData where
  api_error : Bool
  block_number : ℕ
  scores : List RawScoreEntry
deriving DecidableEq, Repr

/-- The seven maps produced by `_reconstruct_stats_from_api_scores`, each
keyed by hotkey (total functions defaulting to the empty dict, exactly the
`dict.get(hotkey, {})` access pattern used downstream). -/
structure ReconState where
  stats : String → List (String × StatEntry)
  cis : String → List (String × (ℚ × ℚ))
  sbem : String → List (String × EnvScoreData)
  compl : String → List (String × ℚ)
  thr : String → List (String × ℚ)
  scount : String → List (String × ℕ)
  tprob : String → List (String × ℕ)

/-- The empty reconstruction state (all per-hotkey dicts initialized empty). -/
def initRecon : ReconState :=
  { stats := fun _ => [], cis := fun _ => [], sbem := fun _ => [],
    compl := fun _ => [], thr := fun _ => [], scount := fun _ => [],
    tprob := fun _ => [] }

/-- Update one per-hotkey per-env binding inside a hotkey-keyed map. -/
def updAt {α : Type} (f : String → List (String × α)) (hk : String) (e : String)
    (v : α) : String → List (String × α) :=
  Function.update f hk (dictSet (f hk) e v)

/-- Processing of one recognized environment of one raw record (the body of
the `for env in envs` loop of `_reconstruct_stats_from_api_scores`). -/
def processEnv (hk : String) (first_block : ℕ) (scores_by_env : List (String × EnvScoreData))
    (s : ReconState) (env : String) : ReconState :=
  match dlookup scores_by_env env with
  | none => s
  | some d =>
    let total_score : ℚ := if 0 < d.sample_count then d.score * d.sample_count else 0
    let st : StatEntry :=
      { samples := d.sample_count, total_score := total_score, first_block := first_block }
    let s := { s with stats := updAt s.stats hk env st }
    let s := if 0 < d.sample_count then
        { s with cis := updAt s.cis hk env (max 0 d.threshold, min 1 d.score) }
      else s
    let s := { s with compl := updAt s.compl hk env d.completeness }
    let s := { s with thr := updAt s.thr hk env d.threshold }
    let s := { s with scount := updAt s.scount hk env d.sample_count }
    let total_problems : ℕ :=
      if 0 < d.completeness then (roundQ ((d.sample_count : ℚ) / d.completeness)).toNat
      else if 0 < d.sample_count then d.sample_count else 0
    { s with tprob := updAt s.tprob hk env total_problems }

/-- Processing of one raw score record: a record whose hotkey is missing
(malformed) or not in the metagraph is skipped (`continue`); otherwise its
`scores_by_env` dict is stored wholesale and every recognized environment
is folded into the seven maps. -/
def processEntry (hotkeys : List String) (envs : List String) (s : ReconState)
    (entry : RawScoreEntry) : ReconState :=
  match entry.miner_hotkey with
  | none => s
  | some hk =>
    if hk ∈ hotkeys then
      let s1 := { s with sbem := Function.update s.sbem hk entry.scores_by_env }
      envs.foldl (processEnv hk entry.first_block entry.scores_by_env) s1
    else s

/-- `_reconstruct_stats_from_api_scores`: fold every raw record of the
feed into the seven per-miner per-environment maps. -/
def reconstructStats (hotkeys : List String) (envs : List String)
    (entries : List RawScoreEntry) : ReconState :=
  entries.foldl (processEntry hotkeys envs) initRecon

/-- The per-UID status assembled by `get_all_dominance_data` (the fields of
the `UIDStatus` pydantic model). -/
structure UIDStatus where
  uid : ℕ
  hotkey : String
  is_dominated : Bool
  dominating_uids : List ℕ
  dominated_by_count : ℕ
  dominating_active_count : ℕ
  dominating_non_active_count : ℕ
  on_pareto_frontier : Bool
  has_data : Bool
  is_active : Bool
  age_days : ℚ
  first_block : Option ℕ
  points : ℚ
  env_scores : List (String × ℚ)
  env_confidence_intervals : List (String × (ℚ × ℚ))
  env_completeness : List (String × ℚ)
  env_thresholds : List (String × ℚ)
  env_sample_counts : List (String × ℕ)
  env_total_problems : List (String × ℕ)
  model_name : Option String
deriving DecidableEq, Repr

/-- The `DominanceData` population snapshot. -/
structure DominanceData where
  block : ℕ
  uids : List UIDStatus
  total_uids : ℕ
  pareto_frontier_count : ℕ
  dominated_count : ℕ
deriving DecidableEq, Repr

/-- Everything the population builder consumes: the metagraph, the
recognized environments, the reconstructed maps and the scoring-policy
configuration. -/
structure BuildCtx where
  hotkeys : List String
  current_block : ℕ
  ENVS : List String
  rc : ReconState
  overall : String → ℚ
  model_names : List (String × String)
  min_completeness : ℚ

/-- `get_first_block` on one miner's stats dict: the first value (in dict
insertion order) with a truthy positive `first_block`. -/
def getFirstBlockHK (statsHK : List (String × StatEntry)) : Option ℕ :=
  statsHK.findSome? (fun p => if 0 < p.2.first_block then some p.2.first_block else none)

/-- `get_first_block(uid)`. -/
def getFirstBlockUid (ctx : BuildCtx) (uid : ℕ) : Option ℕ :=
  if ctx.hotkeys.length ≤ uid then none
  else getFirstBlockHK (ctx.rc.stats (ctx.hotkeys.getD uid ""))

/-- `calculate_age_days(uid)`: `(current_block - first_block) * 12 / 86400`
days (1 block = 12 seconds), `0.0` without a resolvable first block. -/
def calculateAgeDays (ctx : BuildCtx) (uid : ℕ) : ℚ :=
  if ctx.hotkeys.length ≤ uid then 0
  else
    match getFirstBlockUid ctx uid with
    | none => 0
    | some fb =>
      if fb = 0 then 0
      else ((((ctx.current_block : ℤ) - (fb : ℤ) : ℤ) * 12 : ℤ) : ℚ) / 86400

/-- A miner has data when some recognized environment has a positive
reconstructed sample count. -/
def hasDataHK (ctx : BuildCtx) (hk : String) : Bool :=
  ctx.ENVS.any (fun e => decide (0 < statSamples (ctx.rc.stats hk) e))

/-- Validator's `is_valid_for_scoring` notion of an active miner: at least
one environment whose completeness meets the configured bar. -/
def isActiveHK (ctx : BuildCtx) (hk : String) : Bool :=
  (ctx.rc.compl hk).any (fun p => decide (ctx.min_completeness ≤ p.2))

/-- Per-environment accuracy recomputed from the reconstructed stats
(`total_score / samples` when samples are present, else `0.0`). -/
def accuracyOf (ctx : BuildCtx) (hk : String) (e : String) : ℚ :=
  let st := (dlookup (ctx.rc.stats hk) e).getD { samples := 0, total_score := 0, first_block := 0 }
  if 0 < st.samples then st.total_score / (st.samples : ℚ) else 0

/-- The candidate loop of the population builder: every other miner with
data whose age is not strictly smaller than the target's and for which
`_check_dominance(candidate, target)` holds, in UID order. -/
def dominatorsOf (ctx : BuildCtx) (tu : ℕ) : List ℕ :=
  let thk := ctx.hotkeys.getD tu ""
  (List.range ctx.hotkeys.length).filter (fun cu =>
    decide (cu ≠ tu) &&
    (let chk := ctx.hotkeys.getD cu ""
     hasDataHK ctx chk &&
     !(decide (calculateAgeDays ctx cu < calculateAgeDays ctx tu)) &&
     checkDominance chk thk ctx.ENVS ctx.rc.sbem ctx.rc.stats))

/-- The status record built for one target UID.  The Python builds the
no-data branch and the full evaluation branch as two separate `UIDStatus`
constructions; their shared fields coincide, so the record is assembled
once here with the candidate loop run only when the target has data
(`doms = []`, `is_active = False`, `points = 0.0` in the no-data branch,
exactly as in the source). -/
def mkStatus (ctx : BuildCtx) (tu : ℕ) : UIDStatus :=
  let thk := ctx.hotkeys.getD tu ""
  let hasD := hasDataHK ctx thk
  let doms := if hasD then dominatorsOf ctx tu else []
  let domsActive := doms.filter (fun cu => isActiveHK ctx (ctx.hotkeys.getD cu ""))
  let domsNon := doms.filter (fun cu => !(isActiveHK ctx (ctx.hotkeys.getD cu "")))
  { uid := tu, hotkey := thk,
    is_dominated := !doms.isEmpty,
    dominating_uids := sortNat doms,
    dominated_by_count := doms.length,
    dominating_active_count := domsActive.length,
    dominating_non_active_count := domsNon.length,
    on_pareto_frontier := doms.isEmpty,
    has_data := hasD,
    is_active := if hasD then isActiveHK ctx thk else false,
    age_days := calculateAgeDays ctx tu,
    first_block := getFirstBlockUid ctx tu,
    points := if hasD then ctx.overall thk else 0,
    env_scores := ctx.ENVS.map (fun e => (e, accuracyOf ctx thk e)),
    env_confidence_intervals :=
      ctx.ENVS.map (fun e => (e, (dlookup (ctx.rc.cis thk) e).getD (0, 0))),
    env_completeness := ctx.ENVS.map (fun e => (e, (dlookup (ctx.rc.compl thk) e).getD 1)),
    env_thresholds := ctx.ENVS.map (fun e => (e, (dlookup (ctx.rc.thr thk) e).getD 0)),
    env_sample_counts := ctx.ENVS.map (fun e => (e, (dlookup (ctx.rc.scount thk) e).getD 0)),
    env_total_problems := ctx.ENVS.map (fun e => (e, (dlookup (ctx.rc.tprob thk) e).getD 0)),
    model_name := dlookup ctx.model_names thk }

/-- The atomic full pass over every target UID of the population. -/
def buildStatuses (ctx : BuildCtx) : List UIDStatus :=
  (List.range ctx.hotkeys.length).map (mkStatus ctx)

/-- Assemble the `DominanceData` snapshot: statuses, the Pareto-frontier
count (restricted to miners with data) and the dominated count. -/
def buildSnapshot (ctx : BuildCtx) : DominanceData :=
  let sts := buildStatuses ctx
  { block := ctx.current_block,
    uids := sts,
    total_uids := ctx.hotkeys.length,
    pareto_frontier_count := sts.countP (fun u => u.on_pareto_frontier && u.has_data),
    dominated_count := sts.countP (fun u => u.is_dominated) }

/-- Insertion sort on environment-name strings, modelling Python
`sorted` over the extracted environment set. -/
def insertSortedStr (a : String) : List String → List String
  | [] => [a]
  | b :: bs => if a ≤ b then a :: b :: bs else b :: insertSortedStr a bs

/-- Python `sorted` on strings. -/
def sortStr (l : List String) : List String := l.foldr insertSortedStr []

/-- Fallback extraction of the environment tuple from the scores data:
union of all `scores_by_env` keys, deduplicated and sorted. -/
def extractEnvs (entries : List RawScoreEntry) : List String :=
  sortStr ((entries.foldr (fun e acc => (e.scores_by_env.map Prod.fst) ++ acc) []).dedup)

/-- The in-memory snapshot cache `_cache`, a dict keyed by block number. -/
abbrev Cache : Type := List (ℕ × DominanceData)

/-- The cache insertion of `get_all_dominance_data`: store the result
under its block key and, past 10 entries, delete the entry with the
numerically smallest block key. -/
def cachePut (c : Cache) (k : ℕ) (v : DominanceData) : Cache :=
  let c1 : List (ℕ × DominanceData) := dictSet c k v
  if 10 < c1.length then
    c1.filter (fun p => decide (p.1 ≠ minKey (c1.map Prod.fst)))
  else c1

/-- Outcomes of the external collaborators consumed during one rebuild.
`Except.error ()` models the collaborator raising an exception; the
environment-registry fetch never raises (`fetch_environments_from_api`
catches internally and returns a possibly empty list). -/
structure Collab where
  metagraphR : Except Unit Metagraph
  scoresR : Except Unit ScoresData
  environments : List String
  scorerConfigR : Except Unit (Option ℚ)
  commitmentsR : Except Unit (List (String × String))

/-- The explicitly empty snapshot returned on every short-circuit of the
rebuild (`DominanceData(block=current_block, uids=[], ... 0, 0)`). -/
def emptyDD (current_block total : ℕ) : DominanceData :=
  { block := current_block, uids := [], total_uids := total,
    pareto_frontier_count := 0, dominated_count := 0 }

/-- Overall scores dict built from the feed (`scores[hotkey] = overall_score`,
later records overwrite earlier ones). -/
def buildOverall (entries : List RawScoreEntry) : String → ℚ :=
  entries.foldl (fun f e =>
    match e.miner_hotkey with
    | some hk => Function.update f hk e.overall_score
    | none => f) (fun _ => 0)

/-- Model names: the commitment records when the chain query succeeds
(empty on failure, which is caught and logged), then filled in from the
feed for hotkeys not yet present. -/
def buildModelNames (commR : Except Unit (List (String × String)))
    (entries : List RawScoreEntry) : List (String × String) :=
  let base : List (String × String) :=
    match commR with
    | Except.ok l => l
    | Except.error _ => []
  entries.foldl (fun m e =>
    match e.miner_hotkey with
    | some hk =>
      if e.model ≠ "" ∧ (dlookup m hk).isNone then
        m ++ [(hk, e.model ++ (if e.model_revision ≠ "" then "@" ++ e.model_revision else ""))]
      else m
    | none => m) base

/-- `get_all_dominance_data(block, refresh)` as a state-passing function
over the cache and the collaborator outcomes.  A failure of the
subtensor/metagraph query happens before the `try` block and propagates;
every failure inside the fetch block short-circuits to the explicitly
empty snapshot.  Returns the snapshot paired with the updated cache. -/
def getAllDominanceData (collab : Collab) (cache : Cache) (block : Option ℕ)
    (refresh : Bool) : Except Unit (DominanceData × Cache) :=
  match collab.metagraphR with
  | Except.error e => Except.error e
  | Except.ok meta =>
    let current_block := meta.block
    let cache_block := block.getD current_block
    match if refresh then none else dlookup cache cache_block with
    | some cached => Except.ok (cached, cache)
    | none =>
      let cache1 : Cache :=
        if refresh then List.filter (fun p => decide (p.1 ≠ cache_block)) cache else cache
      let emptyResult := emptyDD current_block meta.hotkeys.length
      match collab.scoresR with
      | Except.error _ => Except.ok (emptyResult, cache1)
      | Except.ok sd =>
        if sd.api_error then Except.ok (emptyResult, cache1)
        else if sd.block_number = 0 then Except.ok (emptyResult, cache1)
        else
          match collab.scorerConfigR with
          | Except.error _ => Except.ok (emptyResult, cache1)
          | Except.ok cfg =>
            let ENVS := if collab.environments.isEmpty then extractEnvs sd.scores
                        else collab.environments
            let rc := reconstructStats meta.hotkeys ENVS sd.scores
            let has_stats := meta.hotkeys.any (fun hk =>
              (rc.stats hk).any (fun p => decide (0 < p.2.samples)))
            if !has_stats then Except.ok (emptyResult, cache1)
            else if ENVS.isEmpty then Except.ok (emptyResult, cache1)
            else
              let ctx : BuildCtx :=
                { hotkeys := meta.hotkeys, current_block := current_block,
                  ENVS := ENVS, rc := rc,
                  overall := buildOverall sd.scores,
                  model_names := buildModelNames collab.commitmentsR sd.scores,
                  min_completeness := cfg.getD (mkRat 95 100) }
              let result := buildSnapshot ctx
              Except.ok (result, cachePut cache1 cache_block result)

/-- Response of the single-UID and dominating-detail endpoints when the
UID is absent from the snapshot (`{"error": "UID x not found"}`). -/
inductive UidResp where
  | notFound (uid : ℕ)
  | found (status : UIDStatus)
deriving DecidableEq, Repr

/-- Route `GET /api/dominance`: catches every failure and returns an empty
data structure with `block=0` instead of raising. -/
def getDominanceDataRoute (collab : Collab) (cache : Cache) (block : Option ℕ)
    (refresh : Bool) : DominanceData × Cache :=
  match getAllDominanceData collab cache block refresh with
  | Except.ok r => r
  | Except.error _ =>
    ({ block := 0, uids := [], total_uids := 0,
       pareto_frontier_count := 0, dominated_count := 0 }, cache)

/-- Route `GET /api/dominance/{uid}`: no exception handler of its own, so a
failure raised by the rebuild propagates. -/
def getUidDominanceRoute (collab : Collab) (cache : Cache) (uid : ℕ)
    (block : Option ℕ) (refresh : Bool) : Except Unit (UidResp × Cache) :=
  match getAllDominanceData collab cache block refresh with
  | Except.error e => Except.error e
  | Except.ok (data, c) =>
    match data.uids.find? (fun u => decide (u.uid = uid)) with
    | some st => Except.ok (UidResp.found st, c)
    | none => Except.ok (UidResp.notFound uid, c)

/-- Payload of `GET /api/dominance/{uid}/dominating`. -/
structure DominatingDetail where
  uid : ℕ
  dominating_uids : List UIDStatus
  total_count : ℕ
  expected_count : ℕ
  active_count : ℕ
  non_active_count : ℕ
deriving DecidableEq, Repr

/-- Response of `GET /api/dominance/{uid}/dominating`. -/
inductive DetailResp where
  | notFound (uid : ℕ)
  | empty (uid : ℕ)
  | detail (d : DominatingDetail)
deriving DecidableEq, Repr

/-- Route `GET /api/dominance/{uid}/dominating`: expands every dominating
UID of the target into its full status; no exception handler of its own. -/
def getDominatingDetailRoute (collab : Collab) (cache : Cache) (uid : ℕ)
    (block : Option ℕ) (refresh : Bool) : Except Unit (DetailResp × Cache) :=
  match getAllDominanceData collab cache block refresh with
  | Except.error e => Except.error e
  | Except.ok (data, c) =>
    match data.uids.find? (fun u => decide (u.uid = uid)) with
    | none => Except.ok (DetailResp.notFound uid, c)
    | some st =>
      if st.dominating_uids.isEmpty then Except.ok (DetailResp.empty uid, c)
      else
        let details := st.dominating_uids.filterMap
          (fun du => data.uids.find? (fun u => decide (u.uid = du)))
        Except.ok (DetailResp.detail
          { uid := uid, dominating_uids := details,
            total_count := details.length,
            expected_count := st.dominating_uids.length,
            active_count := st.dominating_active_count,
            non_active_count := st.dominating_non_active_count }, c)

/-- Response of `POST /api/dominance/refresh`: a success wrapper around the
refreshed snapshot, or `{"success": false, "error": ...}`. -/
inductive RefreshResp where
  | success (data : DominanceData)
  | failure
deriving DecidableEq, Repr

/-- Route `POST /api/dominance/refresh`: forces `refresh=True` and catches
its own failures into an error payload (not an empty snapshot). -/
def refreshDominanceRoute (collab : Collab) (cache : Cache) (block : Option ℕ) :
    RefreshResp × Cache :=
  match getAllDominanceData collab cache block true with
  | Except.ok (data, c) => (RefreshResp.success data, c)
  | Except.error _ => (RefreshResp.failure, cache)

/-- Spec scenario miner A: `first_block=100`, 50 samples, accuracy 0.80 in
the single environment `E1`. -/
def entryA : RawScoreEntry :=
  { miner_hotkey := some "A", first_block := 100, total_samples := 50,
    overall_score := 0, model := "", model_revision := "",
    scores_by_env := [("E1",
      { score := mkRat 8 10, sample_count := 50, threshold := 0, completeness := 1 })] }

/-- Spec scenario 2 miner B: `first_block=200`, 50 samples, accuracy 0.85. -/
def entryB85 : RawScoreEntry :=
  { miner_hotkey := some "B", first_block := 200, total_samples := 50,
    overall_score := 0, model := "", model_revision := "",
    scores_by_env := [("E1",
      { score := mkRat 85 100, sample_count := 50, threshold := 0, completeness := 1 })] }

/-- Spec scenario 1 miner B: `first_block=200`, 50 samples, accuracy 0.83. -/
def entryB83 : RawScoreEntry :=
  { miner_hotkey := some "B", first_block := 200, total_samples := 50,
    overall_score := 0, model := "", model_revision := "",
    scores_by_env := [("E1",
      { score := mkRat 83 100, sample_count := 50, threshold := 0, completeness := 1 })] }

/-- Two-miner metagraph at block 1000. -/
def metaAB : Metagraph := { hotkeys := ["A", "B"], block := 1000 }

/-- Collaborators for scenario 2 (A vs B with accuracy 0.85), all healthy. -/
def collabScenario2 : Collab :=
  { metagraphR := Except.ok metaAB,
    scoresR := Except.ok { api_error := false, block_number := 500,
                           scores := [entryA, entryB85] },
    environments := ["E1"],
    scorerConfigR := Except.ok none,
    commitmentsR := Except.ok [] }

/-- Collaborators for scenario 1 (A vs B with accuracy 0.83), all healthy. -/
def collabScenario1 : Collab :=
  { metagraphR := Except.ok metaAB,
    scoresR := Except.ok { api_error := false, block_number := 500,
                           scores := [entryA, entryB83] },
    environments := ["E1"],
    scorerConfigR := Except.ok none,
    commitmentsR := Except.ok [] }

/-- Reconstruction of scenario 2 (used to query `_check_dominance` at the
same inputs the builder passes to it). -/
def rcScenario2 : ReconState := reconstructStats ["A", "B"] ["E1"] [entryA, entryB85]

/-- Reconstruction of scenario 1. -/
def rcScenario1 : ReconState := reconstructStats ["A", "B"] ["E1"] [entryA, entryB83]

/-- The variant of the required-score formula written the way the spec
words it (`clamp(x, lo, hi) = min(max(x, lo), hi)`), for refinement
against the implementation. -/
def requiredScoreSpec (prior : ℚ) : ℚ :=
  min (prior + min (max ((1 - prior) * mkRat 2 10) (mkRat 2 100)) (mkRat 1 10)) 1

/-- Claim C1 (counterexample): the spec's table value `required(0.0)=0.02`
is wrong: at prior `0.0` the error-rate delta is `0.2`, which the clamp
caps at `0.1`, so the code returns `0.1`, not `0.02`. -/
theorem c1_required_zero_counterexample :
    requiredScore 0 = mkRat 1 10 ∧ requiredScore 0 ≠ mkRat 2 100 := by
  constructor
  · decide
  · decide

/-- Claim C1 (amended): the required-score function satisfies
`required(prior) = min(prior + min(max((1 - prior) * 0.2, 0.02), 0.1), 1.0)`
for every prior, and `required(0.0) = 0.1` (not `0.02`),
`required(0.9) = 0.92`, `required(0.99) = 1.0`. -/
theorem c1_required_score_amended :
    (∀ p : ℚ, requiredScore p = requiredScoreSpec p) ∧
    requiredScore 0 = mkRat 1 10 ∧
    requiredScore (mkRat 9 10) = mkRat 92 100 ∧
    requiredScore (mkRat 99 100) = 1 := by
  refine ⟨fun p => rfl, by decide, by decide, by decide⟩

/-- Every environment of the threshold loop of `_check_dominance` increments
exactly one of the two win counters, so they sum to the number of
environments both miners carry data in. -/
theorem winsCount_split (eS lS : List (String × EnvScoreData)) (envs : List String) :
    earlierWinsCount eS lS envs + laterWinsCount eS lS envs =
      (validEnvs eS lS envs).length := by
  induction envs with
  | nil => rfl
  | cons e es ih =>
    simp only [earlierWinsCount, laterWinsCount, validEnvs, List.filter_cons] at ih ⊢
    cases h1 : decide (0 < envSamples eS e) <;>
      cases h2 : decide (0 < envSamples lS e) <;>
        cases h3 : laterBeats eS lS e <;>
          simp only [Bool.false_and, Bool.true_and, Bool.and_false, Bool.and_true,
            Bool.not_false, Bool.not_true, if_true, if_false, List.length_cons,
            Bool.false_eq_true, Bool.true_eq_false, reduceIte] <;>
          omega

/-- A miner never strictly beats itself in any environment under the
SIMPLE rule. -/
theorem simpleAWins_self (aS : List (String × EnvScoreData)) (envs : List String) :
    simpleAWins aS aS envs = false := by
  apply List.any_eq_false.mpr
  intro e _
  simp [lt_irrefl]

/-- The SIMPLE rule never certifies dominance in both directions. -/
theorem simpleDominates_antisymm (aS bS : List (String × EnvScoreData))
    (envs : List String) :
    ¬(simpleDominates aS bS envs = true ∧ simpleDominates bS aS envs = true) := by
  rintro ⟨h1, h2⟩
  simp only [simpleDominates, Bool.and_eq_true, Bool.not_eq_true'] at h1 h2
  rw [h1.1] at h2
  exact absurd h2.2 (by simp)

/-- Claim C7: antisymmetry of `_check_dominance` — for distinct miners and
any fixed scores/stats input, `dominates(A,B)` and `dominates(B,A)` are
never both true, on the threshold path and on every SIMPLE fallback path. -/
theorem c7_checkDominance_antisymm (envs : List String)
    (sbem : String → List (String × EnvScoreData))
    (stats : String → List (String × StatEntry)) (A B : String) (hAB : A ≠ B) :
    ¬(checkDominance A B envs sbem stats = true ∧
      checkDominance B A envs sbem stats = true) := by
  rintro ⟨h1, h2⟩
  simp only [checkDominance] at h1 h2
  by_cases hae : (sbem A).isEmpty
  · simp [hae] at h1
  · by_cases hbe : (sbem B).isEmpty
    · simp [hbe] at h1
    · simp only [hae, hbe, Bool.or_self, Bool.false_or, Bool.or_false, if_false,
        Bool.false_eq_true, reduceIte] at h1 h2
      cases hfa : resolveFB (stats A) envs with
      | none =>
        rw [hfa] at h1 h2
        cases hfb : resolveFB (stats B) envs with
        | none =>
          rw [hfb] at h1 h2
          exact simpleDominates_antisymm _ _ _ ⟨h1, h2⟩
        | some fb =>
          rw [hfb] at h1 h2
          exact simpleDominates_antisymm _ _ _ ⟨h1, h2⟩
      | some fa =>
        rw [hfa] at h1 h2
        cases hfb : resolveFB (stats B) envs with
        | none =>
          rw [hfb] at h1 h2
          exact simpleDominates_antisymm _ _ _ ⟨h1, h2⟩
        | some fb =>
          rw [hfb] at h1 h2
          dsimp only at h1 h2
          rcases lt_trichotomy fa fb with hlt | heq | hgt
          · rw [if_pos hlt] at h1
            rw [if_neg (by omega : ¬ fb < fa), if_pos hlt] at h2
            by_cases hv : (validEnvs (sbem A) (sbem B) envs).isEmpty
            · simp [hv] at h1
            · rw [if_neg (by simp [hv]), decide_eq_true_eq] at h1 h2
              have hsum := winsCount_split (sbem A) (sbem B) envs
              have hz : (validEnvs (sbem A) (sbem B) envs).length = 0 := by omega
              rw [List.length_eq_zero] at hz
              rw [hz] at hv
              simp at hv
          · rw [if_neg (by omega : ¬ fa < fb), if_neg (by omega : ¬ fb < fa)] at h1
            rw [if_neg (by omega : ¬ fb < fa), if_neg (by omega : ¬ fa < fb)] at h2
            exact simpleDominates_antisymm _ _ _ ⟨h1, h2⟩
          · rw [if_neg (by omega : ¬ fa < fb), if_pos hgt] at h1
            rw [if_pos hgt] at h2
            by_cases hv : (validEnvs (sbem B) (sbem A) envs).isEmpty
            · simp [hv] at h1
            · rw [if_neg (by simp [hv]), decide_eq_true_eq] at h1 h2
              have hsum := winsCount_split (sbem B) (sbem A) envs
              have hz : (validEnvs (sbem B) (sbem A) envs).length = 0 := by omega
              rw [List.length_eq_zero] at hz
              rw [hz] at hv
              simp at hv

/-- Witness for claim C7 at the spec's scenario-1 population. -/
theorem c7_checkDominance_antisymm_witness :
    "A" ≠ "B" ∧
    ¬(checkDominance "A" "B" ["E1"] rcScenario1.sbem rcScenario1.stats = true ∧
      checkDominance "B" "A" ["E1"] rcScenario1.sbem rcScenario1.stats = true) :=
  ⟨by decide,
   c7_checkDominance_antisymm ["E1"] rcScenario1.sbem rcScenario1.stats "A" "B" (by decide)⟩

/-- Unpacking of membership in the builder's dominator list: every element
passed the whole candidate filter. -/
theorem mem_dominatorsOf (ctx : BuildCtx) (tu c : ℕ) (h : c ∈ dominatorsOf ctx tu) :
    c ≠ tu ∧ hasDataHK ctx (ctx.hotkeys.getD c "") = true ∧
    ¬(calculateAgeDays ctx c < calculateAgeDays ctx tu) ∧
    checkDominance (ctx.hotkeys.getD c "") (ctx.hotkeys.getD tu "") ctx.ENVS
      ctx.rc.sbem ctx.rc.stats = true := by
  simp only [dominatorsOf, List.mem_filter, Bool.and_eq_true, decide_eq_true_eq,
    Bool.not_eq_true', decide_eq_false_iff_not] at h
  tauto

/-- The dominator list of a built status comes from the candidate filter. -/
theorem mkStatus_dominating_sub (ctx : BuildCtx) (tu c : ℕ)
    (h : c ∈ (mkStatus ctx tu).dominating_uids) : c ∈ dominatorsOf ctx tu := by
  have h' : c ∈ sortNat (if hasDataHK ctx (ctx.hotkeys.getD tu "") then
      dominatorsOf ctx tu else []) := h
  rw [mem_sortNat] at h'
  cases hd : hasDataHK ctx (ctx.hotkeys.getD tu "") with
  | false => rw [hd] at h'; simp at h'
  | true => rw [hd] at h'; simpa using h'

/-- Claim C10: irreflexivity — `_check_dominance(A, A)` is false for every
input (equal resolved first blocks take the SIMPLE rule, which yields no
strict win on identical scores), and the population builder's candidate
loop skips the target itself, so no status ever lists its own UID as a
dominator. -/
theorem c10_dominance_irreflexive :
    (∀ (envs : List String) (sbem : String → List (String × EnvScoreData))
       (stats : String → List (String × StatEntry)) (A : String),
       checkDominance A A envs sbem stats = false) ∧
    (∀ (ctx : BuildCtx) (tu : ℕ), tu ∉ dominatorsOf ctx tu) ∧
    (∀ (ctx : BuildCtx) (tu : ℕ), tu ∉ (mkStatus ctx tu).dominating_uids) := by
  have hchk : ∀ (envs : List String) (sbem : String → List (String × EnvScoreData))
      (stats : String → List (String × StatEntry)) (A : String),
      checkDominance A A envs sbem stats = false := by
    intro envs sbem stats A
    simp only [checkDominance]
    by_cases hae : (sbem A).isEmpty
    · simp [hae]
    · simp only [hae, Bool.or_self, Bool.false_eq_true, reduceIte]
      cases hfa : resolveFB (stats A) envs with
      | none =>
        simp [simpleDominates, simpleAWins_self]
      | some fa =>
        dsimp only
        rw [if_neg (lt_irrefl fa), if_neg (lt_irrefl fa)]
        simp [simpleDominates, simpleAWins_self]
  have hdom : ∀ (ctx : BuildCtx) (tu : ℕ), tu ∉ dominatorsOf ctx tu := by
    intro ctx tu hmem
    simp only [dominatorsOf, List.mem_filter, Bool.and_eq_true, decide_eq_true_eq] at hmem
    exact hmem.2.1 rfl
  refine ⟨hchk, hdom, ?_⟩
  intro ctx tu hmem
  exact hdom ctx tu (mkStatus_dominating_sub ctx tu tu hmem)

/-- Claim C3: age monotonicity of the population builder — a candidate
that is strictly younger than the target (smaller derived age from
`first_block`) never appears in the target's dominator set in any built
population snapshot. -/
theorem c3_age_monotonicity (ctx : BuildCtx) (s : UIDStatus)
    (hs : s ∈ buildStatuses ctx) (c : ℕ)
    (hyoung : calculateAgeDays ctx c < calculateAgeDays ctx s.uid) :
    c ∉ s.dominating_uids := by
  intro hc
  rcases List.mem_map.mp hs with ⟨tu, _, rfl⟩
  have huid : (mkStatus ctx tu).uid = tu := rfl
  rw [huid] at hyoung
  exact (mem_dominatorsOf ctx tu c (mkStatus_dominating_sub ctx tu c hc)).2.2.1 hyoung

/-- Builder context of the spec's scenario 1 (A: `first_block=100`,
accuracy 0.80; B: `first_block=200`, accuracy 0.83; block 1000). -/
def ctxScenario1 : BuildCtx :=
  { hotkeys := ["A", "B"], current_block := 1000, ENVS := ["E1"],
    rc := rcScenario1, overall := buildOverall [entryA, entryB83],
    model_names := [], min_completeness := mkRat 95 100 }

/-- Witness for claim C3: in scenario 1, miner B (uid 1) is strictly
younger than miner A (uid 0), and indeed does not appear among A's
dominators. -/
theorem c3_age_monotonicity_witness :
    mkStatus ctxScenario1 0 ∈ buildStatuses ctxScenario1 ∧
    calculateAgeDays ctxScenario1 1 < calculateAgeDays ctxScenario1 (mkStatus ctxScenario1 0).uid ∧
    1 ∉ (mkStatus ctxScenario1 0).dominating_uids :=
  ⟨by decide, by decide,
   c3_age_monotonicity ctxScenario1 (mkStatus ctxScenario1 0) (by decide) 1 (by decide)⟩

/-- Claim C8: a miner with zero samples in every recognized environment is
marked on the Pareto frontier, not dominated, with an empty dominator set;
and a zero-data miner is never recorded as a dominator of anyone. -/
theorem c8_no_data_frontier :
    (∀ (ctx : BuildCtx) (tu : ℕ),
       hasDataHK ctx (ctx.hotkeys.getD tu "") = false →
       (mkStatus ctx tu).on_pareto_frontier = true ∧
       (mkStatus ctx tu).is_dominated = false ∧
       (mkStatus ctx tu).dominating_uids = []) ∧
    (∀ (ctx : BuildCtx) (s : UIDStatus), s ∈ buildStatuses ctx →
       ∀ c ∈ s.dominating_uids, hasDataHK ctx (ctx.hotkeys.getD c "") = true) := by
  constructor
  · intro ctx tu hd
    have hdoms : (if hasDataHK ctx (ctx.hotkeys.getD tu "") then
        dominatorsOf ctx tu else []) = [] := by
      rw [hd]
      simp
    refine ⟨?_, ?_, ?_⟩
    · show (if hasDataHK ctx (ctx.hotkeys.getD tu "") then
        dominatorsOf ctx tu else []).isEmpty = true
      rw [hdoms]
      rfl
    · show (!(if hasDataHK ctx (ctx.hotkeys.getD tu "") then
        dominatorsOf ctx tu else []).isEmpty) = false
      rw [hdoms]
      rfl
    · show sortNat (if hasDataHK ctx (ctx.hotkeys.getD tu "") then
        dominatorsOf ctx tu else []) = []
      rw [hdoms]
      rfl
  · intro ctx s hs c hc
    rcases List.mem_map.mp hs with ⟨tu, _, rfl⟩
    exact (mem_dominatorsOf ctx tu c (mkStatus_dominating_sub ctx tu c hc)).2.1

/-- Builder context with a third, zero-data miner C added to scenario 1. -/
def ctxScenario1C : BuildCtx :=
  { hotkeys := ["A", "B", "C"], current_block := 1000, ENVS := ["E1"],
    rc := reconstructStats ["A", "B", "C"] ["E1"] [entryA, entryB83],
    overall := buildOverall [entryA, entryB83],
    model_names := [], min_completeness := mkRat 95 100 }

/-- Witness for claim C8: miner C (uid 2) has no data anywhere and its
status is frontier/not-dominated/no dominators; and the dominator recorded
for miner B (uid 1) does have data. -/
theorem c8_no_data_frontier_witness :
    hasDataHK ctxScenario1C (ctxScenario1C.hotkeys.getD 2 "") = false ∧
    ((mkStatus ctxScenario1C 2).on_pareto_frontier = true ∧
     (mkStatus ctxScenario1C 2).is_dominated = false ∧
     (mkStatus ctxScenario1C 2).dominating_uids = []) ∧
    (mkStatus ctxScenario1C 1 ∈ buildStatuses ctxScenario1C ∧
     0 ∈ (mkStatus ctxScenario1C 1).dominating_uids ∧
     hasDataHK ctxScenario1C (ctxScenario1C.hotkeys.getD 0 "") = true) :=
  ⟨by decide,
   c8_no_data_frontier.1 ctxScenario1C 2 (by decide),
   by decide, by decide,
   c8_no_data_frontier.2 ctxScenario1C (mkStatus ctxScenario1C 1) (by decide) 0 (by decide)⟩
theorem dlookup_eq_none {κ α : Type} [DecidableEq κ] (l : List (κ × α)) (k : κ)
    (h : l.any (fun p => p.1 = k) = false) : dlookup l k = none := by
  induction l with
  | nil => rfl
  | cons p ps ih =>
    simp only [List.any_cons, Bool.or_eq_false_iff, decide_eq_false_iff_not] at h
    simp only [dlookup, if_neg h.1]
    exact ih (by simpa using h.2)

theorem dlookup_append {κ α : Type} [DecidableEq κ] (l m : List (κ × α)) (k : κ) :
    dlookup (l ++ m) k =
      (match dlookup l k with
       | some v => some v
       | none => dlookup m k) := by
  induction l with
  | nil => simp [dlookup]
  | cons p ps ih =>
    by_cases hp : p.1 = k
    · simp [dlookup, hp]
    · simp only [List.cons_append, dlookup, if_neg hp]
      exact ih

theorem dlookup_replace_self {κ α : Type} [DecidableEq κ] (l : List (κ × α)) (k : κ)
    (v : α) (h : l.any (fun p => p.1 = k) = true) :
    dlookup (l.map (fun p => if p.1 = k then (k, v) else p)) k = some v := by
  induction l with
  | nil => simp at h
  | cons p ps ih =>
    by_cases hp : p.1 = k
    · simp [dlookup, hp]
    · simp only [List.any_cons, Bool.or_eq_true, decide_eq_true_eq] at h
      rcases h with h | h
      · exact absurd h hp
      · simp only [List.map_cons, if_neg hp, dlookup, if_neg hp]
        exact ih h

theorem dlookup_replace_ne {κ α : Type} [DecidableEq κ] (l : List (κ × α)) (k k' : κ)
    (v : α) (hne : k' ≠ k) :
    dlookup (l.map (fun p => if p.1 = k then (k, v) else p)) k' = dlookup l k' := by
  induction l with
  | nil => rfl
  | cons p ps ih =>
    simp only [List.map_cons]
    by_cases hp : p.1 = k
    · rw [if_pos hp]
      simp only [dlookup]
      rw [if_neg (fun h : k = k' => hne h.symm)]
      rw [if_neg (fun h : p.1 = k' => hne (hp ▸ h).symm)]
      exact ih
    · rw [if_neg hp]
      simp only [dlookup]
      by_cases hq : p.1 = k'
      · rw [if_pos hq, if_pos hq]
      · rw [if_neg hq, if_neg hq]
        exact ih

/-- Lookup after a Python-dict update: the written key reads back the new
value, every other key is untouched. -/
theorem dlookup_dictSet {κ α : Type} [DecidableEq κ] (l : List (κ × α)) (k k' : κ)
    (v : α) :
    dlookup (dictSet l k v) k' = if k' = k then some v else dlookup l k' := by
  unfold dictSet
  by_cases hany : l.any (fun p => p.1 = k)
  · rw [if_pos hany]
    by_cases hk : k' = k
    · rw [if_pos hk, hk]
      exact dlookup_replace_self l k v hany
    · rw [if_neg hk]
      exact dlookup_replace_ne l k k' v hk
  · rw [if_neg hany]
    rw [dlookup_append]
    have hnone : dlookup l k = none :=
      dlookup_eq_none l k (Bool.eq_false_iff.mpr hany)
    by_cases hk : k' = k
    · subst hk
      rw [hnone]
      simp [dlookup]
    · cases hl : dlookup l k' with
      | some w => simp [hk]
      | none =>
        simp only [dlookup]
        rw [if_neg (fun h : k = k' => hk h.symm), if_neg hk]

theorem mem_of_dlookup {κ α : Type} [DecidableEq κ] {l : List (κ × α)} {k : κ} {v : α}
    (h : dlookup l k = some v) : (k, v) ∈ l := by
  induction l with
  | nil => simp [dlookup] at h
  | cons p ps ih =>
    by_cases hp : p.1 = k
    · simp only [dlookup, if_pos hp, Option.some.injEq] at h
      have hkv : (k, v) = p := by
        rw [← hp, ← h]
      rw [hkv]
      exact List.mem_cons_self p ps
    · simp only [dlookup, if_neg hp] at h
      exact List.mem_cons_of_mem _ (ih h)

/-- Invariant on the confidence-interval map: every stored interval
satisfies `P`. -/
def CIOk (P : ℚ → ℚ → Prop) (cis : String → List (String × (ℚ × ℚ))) : Prop :=
  ∀ hk env lo hi, dlookup (cis hk) env = some (lo, hi) → P lo hi

theorem processEnv_ci {P : ℚ → ℚ → Prop} (hk : String) (fb : ℕ)
    (sbe : List (String × EnvScoreData)) (s : ReconState) (env : String)
    (hgood : ∀ p ∈ sbe, P (max 0 p.2.threshold) (min 1 p.2.score))
    (hs : CIOk P s.cis) : CIOk P (processEnv hk fb sbe s env).cis := by
  have hcis : (processEnv hk fb sbe s env).cis =
      (match dlookup sbe env with
       | none => s.cis
       | some d =>
         if 0 < d.sample_count then
           updAt s.cis hk env (max 0 d.threshold, min 1 d.score)
         else s.cis) := by
    unfold processEnv
    cases hd : dlookup sbe env with
    | none => rfl
    | some d =>
      by_cases hc : 0 < d.sample_count
      · simp only [if_pos hc]
      · simp only [if_neg hc]
  intro hk' env' lo hi hlk
  rw [hcis] at hlk
  cases hd : dlookup sbe env with
  | none =>
    rw [hd] at hlk
    exact hs hk' env' lo hi hlk
  | some d =>
    rw [hd] at hlk
    dsimp only at hlk
    by_cases hc : 0 < d.sample_count
    · rw [if_pos hc, updAt, Function.update_apply] at hlk
      by_cases hk2 : hk' = hk
      · rw [if_pos hk2, dlookup_dictSet] at hlk
        by_cases he : env' = env
        · rw [if_pos he] at hlk
          injection hlk with hpair
          rw [Prod.mk.injEq] at hpair
          rw [← hpair.1, ← hpair.2]
          exact hgood (env, d) (mem_of_dlookup hd)
        · rw [if_neg he] at hlk
          exact hs hk env' lo hi hlk
      · rw [if_neg hk2] at hlk
        exact hs hk' env' lo hi hlk
    · rw [if_neg hc] at hlk
      exact hs hk' env' lo hi hlk

theorem foldl_processEnv_ci {P : ℚ → ℚ → Prop} (hk : String) (fb : ℕ)
    (sbe : List (String × EnvScoreData)) (envs : List String) (s : ReconState)
    (hgood : ∀ p ∈ sbe, P (max 0 p.2.threshold) (min 1 p.2.score))
    (hs : CIOk P s.cis) : CIOk P ((envs.foldl (processEnv hk fb sbe) s).cis) := by
  induction envs generalizing s with
  | nil => exact hs
  | cons e es ih => exact ih _ (processEnv_ci hk fb sbe s e hgood hs)

theorem processEntry_ci {P : ℚ → ℚ → Prop} (hotkeys envs : List String)
    (s : ReconState) (entry : RawScoreEntry)
    (hgood : ∀ p ∈ entry.scores_by_env, P (max 0 p.2.threshold) (min 1 p.2.score))
    (hs : CIOk P s.cis) : CIOk P ((processEntry hotkeys envs s entry).cis) := by
  unfold processEntry
  cases hhk : entry.miner_hotkey with
  | none => exact hs
  | some hk =>
    dsimp only
    by_cases hmem : hk ∈ hotkeys
    · rw [if_pos hmem]
      exact foldl_processEnv_ci hk entry.first_block entry.scores_by_env envs _ hgood hs
    · rw [if_neg hmem]
      exact hs

theorem foldl_processEntry_ci {P : ℚ → ℚ → Prop} (hotkeys envs : List String)
    (entries : List RawScoreEntry) (s : ReconState)
    (hgood : ∀ e ∈ entries, ∀ p ∈ e.scores_by_env,
       P (max 0 p.2.threshold) (min 1 p.2.score))
    (hs : CIOk P s.cis) :
    CIOk P ((entries.foldl (processEntry hotkeys envs) s).cis) := by
  induction entries generalizing s with
  | nil => exact hs
  | cons e es ih =>
    exact ih _ (fun e' he' => hgood e' (List.mem_cons_of_mem _ he'))
      (processEntry_ci hotkeys envs s e (hgood e (List.mem_cons_self _ _)) hs)

theorem reconstructStats_ci {P : ℚ → ℚ → Prop} (hotkeys envs : List String)
    (entries : List RawScoreEntry)
    (hgood : ∀ e ∈ entries, ∀ p ∈ e.scores_by_env,
       P (max 0 p.2.threshold) (min 1 p.2.score)) :
    CIOk P ((reconstructStats hotkeys envs entries).cis) := by
  have hinit : CIOk P (initRecon.cis) := by
    intro hk env lo hi hlk
    simp [initRecon, dlookup] at hlk
  exact foldl_processEntry_ci hotkeys envs entries initRecon hgood hinit

/-- A raw record whose threshold (0.5) exceeds its score (0.3) in `E1`,
both within `[0,1]`. -/
def entryBadCI : RawScoreEntry :=
  { miner_hotkey := some "A", first_block := 100, total_samples := 10,
    overall_score := 0, model := "", model_revision := "",
    scores_by_env := [("E1",
      { score := mkRat 3 10, sample_count := 10, threshold := mkRat 1 2,
        completeness := 1 })] }

/-- Claim C4 (counterexample): the reconstructed confidence interval is
`(max(0, threshold), min(1, score))`, so a threshold above the score —
here `0.5 > 0.3`, both legal values in `[0,1]` — is stored as an interval
with `lower > upper`, refuting `lower ≤ upper`. -/
theorem c4_ci_counterexample :
    dlookup ((reconstructStats ["A"] ["E1"] [entryBadCI]).cis "A") "E1" =
      some (mkRat 1 2, mkRat 3 10) ∧
    ¬((mkRat 1 2 : ℚ) ≤ mkRat 3 10) := by
  constructor
  · decide
  · decide

/-- Claim C4 (amended): the stored interval is `(max(0,threshold),
min(1,score))`; when every raw entry has threshold and score in `[0,1]`
and threshold ≤ score, every stored interval satisfies `lower ∈ [0,1]`,
`upper ∈ [0,1]` and `lower ≤ upper` — without `threshold ≤ score` the last
inequality can fail. -/
theorem c4_ci_bounds_amended (hotkeys envs : List String)
    (entries : List RawScoreEntry)
    (hin : ∀ e ∈ entries, ∀ p ∈ e.scores_by_env,
       0 ≤ p.2.threshold ∧ p.2.threshold ≤ 1 ∧ 0 ≤ p.2.score ∧ p.2.score ≤ 1 ∧
       p.2.threshold ≤ p.2.score)
    (hk env : String) (lo hi : ℚ)
    (hlk : dlookup ((reconstructStats hotkeys envs entries).cis hk) env = some (lo, hi)) :
    0 ≤ lo ∧ lo ≤ 1 ∧ 0 ≤ hi ∧ hi ≤ 1 ∧ lo ≤ hi := by
  have hgood : ∀ e ∈ entries, ∀ p ∈ e.scores_by_env,
      (fun lo hi => 0 ≤ lo ∧ lo ≤ 1 ∧ 0 ≤ hi ∧ hi ≤ 1 ∧ lo ≤ hi)
        (max 0 p.2.threshold) (min 1 p.2.score) := by
    intro e he p hp
    obtain ⟨ht0, ht1, hs0, hs1, hts⟩ := hin e he p hp
    refine ⟨le_max_left 0 _, max_le (by norm_num) ht1, le_min (by norm_num) hs0,
      min_le_left 1 _, max_le ?_ ?_⟩
    · exact le_min (by norm_num) hs0
    · exact le_min ht1 hts
  exact @reconstructStats_ci (fun lo hi => 0 ≤ lo ∧ lo ≤ 1 ∧ 0 ≤ hi ∧ hi ≤ 1 ∧ lo ≤ hi)
    hotkeys envs entries hgood hk env lo hi hlk

/-- Witness for the amended claim C4 at the scenario-1 feed (thresholds 0,
scores 0.80/0.83, all within bounds). -/
theorem c4_ci_bounds_amended_witness :
    (0 : ℚ) ≤ 0 ∧ (0 : ℚ) ≤ 1 ∧ (0 : ℚ) ≤ mkRat 8 10 ∧ (mkRat 8 10 : ℚ) ≤ 1 ∧
      (0 : ℚ) ≤ mkRat 8 10 :=
  c4_ci_bounds_amended ["A", "B"] ["E1"] [entryA, entryB83] (by decide) "A" "E1"
    0 (mkRat 8 10) (by decide)

/-- Claim C6: a malformed raw score record — one whose miner hotkey cannot
be extracted — is skipped, and the reconstruction of all remaining
records is exactly the reconstruction without it; no malformed entry
aborts the reconstruction. -/
theorem c6_malformed_skipped (hotkeys envs : List String)
    (xs ys : List RawScoreEntry) (e : RawScoreEntry)
    (hmal : e.miner_hotkey = none) :
    reconstructStats hotkeys envs (xs ++ e :: ys) =
      reconstructStats hotkeys envs (xs ++ ys) := by
  have hskip : ∀ s : ReconState, processEntry hotkeys envs s e = s := by
    intro s
    unfold processEntry
    rw [hmal]
  unfold reconstructStats
  rw [List.foldl_append, List.foldl_append, List.foldl_cons, hskip]

/-- A malformed raw record: the `miner_hotkey` field is missing. -/
def entryMalformed : RawScoreEntry :=
  { miner_hotkey := none, first_block := 7, total_samples := 3,
    overall_score := 1, model := "m", model_revision := "",
    scores_by_env := [("E1",
      { score := mkRat 9 10, sample_count := 3, threshold := 0, completeness := 1 })] }

/-- Witness for claim C6: inserting the malformed record between the two
scenario records leaves the reconstruction unchanged. -/
theorem c6_malformed_skipped_witness :
    entryMalformed.miner_hotkey = none ∧
    reconstructStats ["A", "B"] ["E1"] ([entryA] ++ entryMalformed :: [entryB83]) =
      reconstructStats ["A", "B"] ["E1"] ([entryA] ++ [entryB83]) :=
  ⟨rfl, c6_malformed_skipped ["A", "B"] ["E1"] [entryA] [entryB83] entryMalformed rfl⟩

theorem foldl_min_le_init (xs : List ℕ) (a : ℕ) : xs.foldl min a ≤ a := by
  induction xs generalizing a with
  | nil => exact le_refl a
  | cons b bs ih =>
    simp only [List.foldl_cons]
    exact le_trans (ih (min a b)) (min_le_left a b)

theorem foldl_min_le_mem (xs : List ℕ) (y : ℕ) :
    ∀ (a : ℕ), y ∈ xs → xs.foldl min a ≤ y := by
  induction xs with
  | nil =>
    intro a hy
    simp at hy
  | cons b bs ih =>
    intro a hy
    simp only [List.foldl_cons]
    rcases List.mem_cons.mp hy with rfl | hy2
    · exact le_trans (foldl_min_le_init bs (min a y)) (min_le_right a y)
    · exact ih (min a b) hy2

theorem foldl_min_mem (xs : List ℕ) : ∀ (a : ℕ), xs.foldl min a = a ∨ xs.foldl min a ∈ xs := by
  induction xs with
  | nil =>
    intro a
    exact Or.inl rfl
  | cons b bs ih =>
    intro a
    simp only [List.foldl_cons]
    rcases ih (min a b) with h | h
    · rcases min_cases a b with ⟨hm, _⟩ | ⟨hm, _⟩
      · exact Or.inl (h.trans hm)
      · refine Or.inr ?_
        rw [h, hm]
        exact List.mem_cons_self b bs
    · exact Or.inr (List.mem_cons_of_mem b h)

/-- `minKey` of a nonempty list is one of its elements. -/
theorem minKey_mem (l : List ℕ) (h : l ≠ []) : minKey l ∈ l := by
  cases l with
  | nil => exact absurd rfl h
  | cons x xs =>
    simp only [minKey]
    rcases foldl_min_mem xs x with h2 | h2
    · rw [h2]
      exact List.mem_cons_self x xs
    · exact List.mem_cons_of_mem x h2

/-- `minKey` bounds every element from below. -/
theorem minKey_le (l : List ℕ) (y : ℕ) (hy : y ∈ l) : minKey l ≤ y := by
  cases l with
  | nil => simp at hy
  | cons x xs =>
    simp only [minKey]
    rcases List.mem_cons.mp hy with rfl | hy2
    · exact foldl_min_le_init xs y
    · exact foldl_min_le_mem xs y x hy2

theorem filter_length_lt {α : Type} (l : List α) (p : α → Bool) (x : α)
    (hx : x ∈ l) (hpx : p x = false) : (l.filter p).length < l.length := by
  induction l with
  | nil => simp at hx
  | cons a as ih =>
    rcases List.mem_cons.mp hx with rfl | hx2
    · simp only [List.filter_cons, hpx]
      exact Nat.lt_succ_of_le (List.length_filter_le p as)
    · simp only [List.filter_cons]
      cases hpa : p a
      · simp only [Bool.false_eq_true, reduceIte]
        exact Nat.lt_succ_of_lt (ih hx2)
      · simp only [reduceIte, List.length_cons]
        exact Nat.succ_lt_succ (ih hx2)

theorem filter_ne_key_length (l : List (ℕ × DominanceData)) (m : ℕ)
    (hnd : (l.map Prod.fst).Nodup) (hm : m ∈ l.map Prod.fst) :
    (l.filter (fun p => decide (p.1 ≠ m))).length = l.length - 1 := by
  induction l with
  | nil => simp at hm
  | cons p ps ih =>
    simp only [List.map_cons, List.nodup_cons] at hnd
    rcases List.mem_cons.mp hm with rfl | hm2
    · simp only [List.filter_cons]
      rw [if_neg (by simp : ¬ ((decide (p.1 ≠ p.1)) = true))]
      have hall : ∀ q ∈ ps, (fun q : ℕ × DominanceData => decide (q.1 ≠ p.1)) q = true := by
        intro q hq
        simp only [decide_eq_true_eq]
        intro hcontra
        exact hnd.1 (hcontra ▸ List.mem_map_of_mem Prod.fst hq)
      rw [List.filter_eq_self.mpr hall]
      simp
    · have hne : p.1 ≠ m := by
        intro hcontra
        exact hnd.1 (hcontra ▸ hm2)
      simp only [List.filter_cons]
      rw [if_pos (by simp [hne] : (decide (p.1 ≠ m)) = true)]
      simp only [List.length_cons]
      rw [ih hnd.2 hm2]
      have h1 : 0 < ps.length := by
        rcases List.mem_map.mp hm2 with ⟨q, hq, _⟩
        exact List.length_pos.mpr (fun hc => by rw [hc] at hq; simp at hq)
      omega

theorem dictSet_fresh (c : Cache) (k : ℕ) (v : DominanceData)
    (hfresh : ∀ p ∈ c, p.1 ≠ k) : dictSet c k v = c ++ [(k, v)] := by
  have hc : (c.any (fun p => decide (p.1 = k))) = false := by
    rw [List.any_eq_false]
    intro p hp
    exact fun h => hfresh p hp (of_decide_eq_true h)
  unfold dictSet
  rw [hc]
  rfl

theorem dictSet_length_le (c : Cache) (k : ℕ) (v : DominanceData) :
    (dictSet c k v).length ≤ c.length + 1 := by
  unfold dictSet
  by_cases h : (c.any (fun p => decide (p.1 = k))) = true
  · rw [if_pos h]
    simp
  · rw [if_neg h]
    simp

/-- Claim C9: the snapshot cache retains at most 10 distinct block keys;
inserting an 11th distinct key evicts exactly the entry carrying the
numerically smallest key then present (which may be the new key itself),
leaving exactly 10 entries, and removes nothing else. -/
theorem c9_cache_eviction (c : Cache) (k : ℕ) (v : DominanceData)
    (hnd : (c.map Prod.fst).Nodup) (hlen : c.length = 10)
    (hfresh : ∀ p ∈ c, p.1 ≠ k) :
    (cachePut c k v).length = 10 ∧
    minKey ((c ++ [(k, v)]).map Prod.fst) ∈ (c ++ [(k, v)]).map Prod.fst ∧
    (∀ k2 ∈ (c ++ [(k, v)]).map Prod.fst, minKey ((c ++ [(k, v)]).map Prod.fst) ≤ k2) ∧
    (∀ p ∈ c ++ [(k, v)],
       p.1 ≠ minKey ((c ++ [(k, v)]).map Prod.fst) → p ∈ cachePut c k v) ∧
    (∀ p ∈ cachePut c k v,
       p ∈ c ++ [(k, v)] ∧ p.1 ≠ minKey ((c ++ [(k, v)]).map Prod.fst)) ∧
    (∀ (c2 : Cache) (k2 : ℕ) (v2 : DominanceData), c2.length ≤ 10 →
       (cachePut c2 k2 v2).length ≤ 10) := by
  have hds := dictSet_fresh c k v hfresh
  have hput : cachePut c k v = (c ++ [(k, v)]).filter
      (fun p => decide (p.1 ≠ minKey ((c ++ [(k, v)]).map Prod.fst))) := by
    unfold cachePut
    rw [hds, if_pos (by simp [hlen])]
  have hnd1 : ((c ++ [(k, v)]).map Prod.fst).Nodup := by
    rw [List.map_append]
    refine List.Nodup.append hnd (List.nodup_singleton k) ?_
    intro a ha hb
    rcases List.mem_map.mp ha with ⟨p, hp, rfl⟩
    simp only [List.map_cons, List.map_nil, List.mem_singleton] at hb
    exact hfresh p hp hb
  have hne : (c ++ [(k, v)]).map Prod.fst ≠ [] := by simp
  have hm := minKey_mem _ hne
  have hbound : ∀ (c2 : Cache) (k2 : ℕ) (v2 : DominanceData), c2.length ≤ 10 →
      (cachePut c2 k2 v2).length ≤ 10 := by
    intro c2 k2 v2 hle
    unfold cachePut
    dsimp only
    by_cases hbig : 10 < (dictSet c2 k2 v2).length
    · rw [if_pos hbig]
      have hne2 : (dictSet c2 k2 v2).map Prod.fst ≠ [] := by
        intro hcontra
        have hlen0 := congrArg List.length hcontra
        rw [List.length_map, List.length_nil] at hlen0
        omega
      have hm2 := minKey_mem _ hne2
      rcases List.mem_map.mp hm2 with ⟨q, hq, hqm⟩
      have hflt := filter_length_lt (dictSet c2 k2 v2)
        (fun p => decide (p.1 ≠ minKey ((dictSet c2 k2 v2).map Prod.fst))) q hq
        (by simp [hqm])
      have hsz := dictSet_length_le c2 k2 v2
      omega
    · rw [if_neg hbig]
      omega
  refine ⟨?_, hm, fun k2 hk2 => minKey_le _ k2 hk2, ?_, ?_, hbound⟩
  · rw [hput, filter_ne_key_length _ _ hnd1 hm]
    simp [hlen]
  · intro p hp hne2
    rw [hput]
    exact List.mem_filter.mpr ⟨hp, decide_eq_true hne2⟩
  · intro p hp
    rw [hput] at hp
    obtain ⟨h1, h2⟩ := List.mem_filter.mp hp
    exact ⟨h1, of_decide_eq_true h2⟩

/-- A full cache: 10 entries with keys 1..10. -/
def cacheTen : Cache := (List.range 10).map (fun i => (i + 1, emptyDD 0 0))

/-- Witness for claim C9: inserting block key 42 into the full 10-entry
cache leaves 10 entries with the smallest key (1) evicted. -/
theorem c9_cache_eviction_witness :
    ((cacheTen.map Prod.fst).Nodup ∧ cacheTen.length = 10 ∧
      (∀ p ∈ cacheTen, p.1 ≠ 42)) ∧
    ((cachePut cacheTen 42 (emptyDD 0 0)).length = 10 ∧
     minKey ((cacheTen ++ [(42, emptyDD 0 0)]).map Prod.fst) ∈
       (cacheTen ++ [(42, emptyDD 0 0)]).map Prod.fst ∧
     (∀ k2 ∈ (cacheTen ++ [(42, emptyDD 0 0)]).map Prod.fst,
        minKey ((cacheTen ++ [(42, emptyDD 0 0)]).map Prod.fst) ≤ k2) ∧
     (∀ p ∈ cacheTen ++ [(42, emptyDD 0 0)],
        p.1 ≠ minKey ((cacheTen ++ [(42, emptyDD 0 0)]).map Prod.fst) →
        p ∈ cachePut cacheTen 42 (emptyDD 0 0)) ∧
     (∀ p ∈ cachePut cacheTen 42 (emptyDD 0 0),
        p ∈ cacheTen ++ [(42, emptyDD 0 0)] ∧
        p.1 ≠ minKey ((cacheTen ++ [(42, emptyDD 0 0)]).map Prod.fst)) ∧
     (∀ (c2 : Cache) (k2 : ℕ) (v2 : DominanceData), c2.length ≤ 10 →
        (cachePut c2 k2 v2).length ≤ 10)) :=
  ⟨⟨by decide, by decide, by decide⟩,
   c9_cache_eviction cacheTen 42 (emptyDD 0 0) (by decide) (by decide) (by decide)⟩

/-- Builder context of the spec's scenario 2 (B's accuracy 0.85). -/
def ctxScenario2 : BuildCtx :=
  { hotkeys := ["A", "B"], current_block := 1000, ENVS := ["E1"],
    rc := rcScenario2, overall := buildOverall [entryA, entryB85],
    model_names := [], min_completeness := mkRat 95 100 }

/-- Claim C2 (counterexample): with A (`first_block=100`, accuracy 0.80)
and B (`first_block=200`, accuracy 0.85), `_check_dominance(B, A)` is true
— B clears A's threshold of 0.84 — but in the built population snapshot A
is NOT marked dominated: the builder skips candidates strictly younger
than the target, so B is never recorded as A's dominator. -/
theorem c2_scenario2_counterexample :
    checkDominance "B" "A" ["E1"] rcScenario2.sbem rcScenario2.stats = true ∧
    (match getAllDominanceData collabScenario2 [] none false with
     | Except.ok (d, _) =>
       d.uids.map (fun u => (u.uid, u.is_dominated, u.on_pareto_frontier))
     | Except.error _ => []) = [(0, false, true), (1, false, true)] := by
  constructor
  · decide
  · decide

/-- Claim C2 (amended): A's required threshold is 0.84 and B's 0.85 clears
it, so `_check_dominance(B, A)` holds and `_check_dominance(A, B)` does
not; but B is strictly younger than A, so the population builder never
evaluates B as a candidate dominator of A: in the snapshot both miners
have empty dominator sets, both sit on the Pareto frontier, and the
dominated count is zero. -/
theorem c2_scenario2_amended :
    requiredScore (mkRat 8 10) = mkRat 84 100 ∧
    checkDominance "B" "A" ["E1"] rcScenario2.sbem rcScenario2.stats = true ∧
    checkDominance "A" "B" ["E1"] rcScenario2.sbem rcScenario2.stats = false ∧
    calculateAgeDays ctxScenario2 1 < calculateAgeDays ctxScenario2 0 ∧
    (match getAllDominanceData collabScenario2 [] none false with
     | Except.ok (d, _) =>
       d.uids.map (fun u => (u.uid, u.is_dominated, u.on_pareto_frontier, u.dominating_uids))
     | Except.error _ => []) = [(0, false, true, []), (1, false, true, [])] ∧
    (match getAllDominanceData collabScenario2 [] none false with
     | Except.ok (d, _) => (d.pareto_frontier_count, d.dominated_count)
     | Except.error _ => (99, 99)) = (2, 0) := by
  refine ⟨by decide, by decide, by decide, by decide, by decide, by decide⟩

/-- Collaborator outcomes where the population/chain query itself raises. -/
def collabChainDown : Collab :=
  { metagraphR := Except.error (),
    scoresR := Except.ok { api_error := false, block_number := 500, scores := [entryA] },
    environments := ["E1"],
    scorerConfigR := Except.ok none,
    commitmentsR := Except.ok [] }

/-- Collaborator outcomes where only the commitment-record chain query
raises. -/
def collabCommDown : Collab :=
  { metagraphR := Except.ok metaAB,
    scoresR := Except.ok { api_error := false, block_number := 500,
                           scores := [entryA, entryB83] },
    environments := ["E1"],
    scorerConfigR := Except.ok none,
    commitmentsR := Except.error () }

/-- Claim C5 (counterexample): not every collaborator failure turns into an
empty snapshot at every boundary operation.  A failure of the chain query
(`get_subtensor`/`metagraph`, which run before the `try` block) propagates
out of the single-miner route, which has no handler of its own; and a
failure of the commitment-record query is caught and logged, after which
the rebuild still returns a fully populated (non-empty) snapshot. -/
theorem c5_failure_contract_counterexample :
    getUidDominanceRoute collabChainDown [] 0 none false = Except.error () ∧
    (match getAllDominanceData collabCommDown [] none false with
     | Except.ok (d, _) => d.uids.length
     | Except.error _ => 0) = 2 := by
  constructor
  · rfl
  · decide

/-- Claim C5 (amended): with the chain query healthy, a failure of the
score-feed query or of the scoring-policy config query during a rebuild
yields the explicitly empty snapshot (empty uid list, zero counts, current
block, no cache insertion beyond the refresh eviction); a chain-query
failure, however, escapes the rebuild: the full-snapshot route maps it to
an empty structure with block 0, while the single-miner and
dominator-detail routes propagate it and the forced-rebuild route returns
an error payload. -/
theorem c5_failure_contract_amended :
    (∀ (meta : Metagraph) (envs : List String) (cfgR : Except Unit (Option ℚ))
       (commR : Except Unit (List (String × String))) (cache : Cache)
       (block : Option ℕ),
       getAllDominanceData
         { metagraphR := Except.ok meta, scoresR := Except.error (),
           environments := envs, scorerConfigR := cfgR, commitmentsR := commR }
         cache block true =
       Except.ok (emptyDD meta.block meta.hotkeys.length,
         cache.filter (fun p => decide (p.1 ≠ block.getD meta.block)))) ∧
    (∀ (meta : Metagraph) (envs : List String)
       (commR : Except Unit (List (String × String))) (cache : Cache)
       (block : Option ℕ) (n : ℕ) (entries : List RawScoreEntry),
       getAllDominanceData
         { metagraphR := Except.ok meta,
           scoresR := Except.ok { api_error := false, block_number := n + 1,
                                  scores := entries },
           environments := envs, scorerConfigR := Except.error (),
           commitmentsR := commR }
         cache block true =
       Except.ok (emptyDD meta.block meta.hotkeys.length,
         cache.filter (fun p => decide (p.1 ≠ block.getD meta.block)))) ∧
    (∀ (sc : Except Unit ScoresData) (envs : List String)
       (cfgR : Except Unit (Option ℚ))
       (commR : Except Unit (List (String × String))) (cache : Cache)
       (uid : ℕ) (block : Option ℕ) (refresh : Bool),
       getDominanceDataRoute
         { metagraphR := Except.error (), scoresR := sc, environments := envs,
           scorerConfigR := cfgR, commitmentsR := commR } cache block refresh =
         ({ block := 0, uids := [], total_uids := 0, pareto_frontier_count := 0,
            dominated_count := 0 }, cache) ∧
       getUidDominanceRoute
         { metagraphR := Except.error (), scoresR := sc, environments := envs,
           scorerConfigR := cfgR, commitmentsR := commR } cache uid block refresh =
         Except.error () ∧
       getDominatingDetailRoute
         { metagraphR := Except.error (), scoresR := sc, environments := envs,
           scorerConfigR := cfgR, commitmentsR := commR } cache uid block refresh =
         Except.error () ∧
       refreshDominanceRoute
         { metagraphR := Except.error (), scoresR := sc, environments := envs,
           scorerConfigR := cfgR, commitmentsR := commR } cache block =
         (RefreshResp.failure, cache)) := by
  refine ⟨fun meta envs cfgR commR cache block => rfl,
    fun meta envs commR cache block n entries => rfl,
    fun sc envs cfgR commR cache uid block refresh => ⟨rfl, rfl, rfl, rfl⟩⟩

/-- Witness for claim C10 at the scenario-1 population. -/
theorem c10_dominance_irreflexive_witness :
    checkDominance "A" "A" ["E1"] rcScenario1.sbem rcScenario1.stats = false ∧
    0 ∉ dominatorsOf ctxScenario1 0 ∧
    0 ∉ (mkStatus ctxScenario1 0).dominating_uids :=
  ⟨c10_dominance_irreflexive.1 ["E1"] rcScenario1.sbem rcScenario1.stats "A",
   c10_dominance_irreflexive.2.1 ctxScenario1 0,
   c10_dominance_irreflexive.2.2 ctxScenario1 0⟩
